import Mathlib

/-!
# Verification of the Godoty sidecar supervisor and updater

Shallow embedding of the sidecar process supervisor and self-updating
binary manager of the Godoty desktop shell (Rust sources under
`src-tauri/src` and `desktop/src-tauri/src`), together with proofs and
refutations of the specified properties.

Strings from the Rust code are modelled as `List Char`; process tables,
network responses and filesystem contents are explicit parameters so that
the OS-dependent functions become pure functions of their environment.
-/

namespace Godoty

/-! ## String machinery

Helpers mirroring the Rust `str` operations used by the sources:
substring containment (`str::contains` with a string pattern),
`trim`, `split_whitespace`, `split('.')`, `trim_start_matches('v')`. -/

/-- Does `hay` start with `needle` (list version of `str::starts_with`)? -/
def leadEq : List Char → List Char → Bool
  | _, [] => true
  | [], _ :: _ => false
  | h :: hs, n :: ns => h == n && leadEq hs ns

/-- Substring containment on char lists: Rust `str::contains(pat)`. -/
def hasSubL (hay needle : List Char) : Bool :=
  match hay with
  | [] => leadEq [] needle
  | _ :: rest => leadEq hay needle || hasSubL rest needle

/-- Substring containment on strings: Rust `str::contains(pat)`. -/
def hasSub (hay needle : String) : Bool :=
  hasSubL hay.data needle.data

/-- Rust `char::is_whitespace`, restricted to the ASCII whitespace that the
sidecar's version output can contain. -/
def isWs (c : Char) : Bool :=
  c == ' ' || c == '\t' || c == '\n' || c == '\r'

/-- Rust `str::trim` on char lists. -/
def trimL (s : List Char) : List Char :=
  ((s.dropWhile isWs).reverse.dropWhile isWs).reverse

/-- Rust `str::split_whitespace` on char lists: maximal runs of
non-whitespace characters, empties skipped. -/
def splitWsL : List Char → List (List Char)
  | [] => []
  | c :: rest =>
    if isWs c then splitWsL rest
    else
      match splitWsL rest with
      | [] => [[c]]
      | t :: ts =>
        match rest with
        | [] => [[c]]
        | r :: _ => if isWs r then [c] :: t :: ts else (c :: t) :: ts

/-- Rust `str::split('.')` on char lists (empty pieces kept). -/
def splitDot : List Char → List (List Char)
  | [] => [[]]
  | c :: rest =>
    if c == '.' then [] :: splitDot rest
    else
      match splitDot rest with
      | [] => [[c]]
      | t :: ts => (c :: t) :: ts

/-- Rust `str::trim_start_matches('v')`: drops every leading `'v'`. -/
def dropLeadingVs : List Char → List Char
  | 'v' :: rest => dropLeadingVs rest
  | l => l

/-! ## Semver model

`commands.rs` compares versions with `semver::Version::parse` and `>`.
We model the fragment exercised by the update check: plain numeric
`MAJOR.MINOR.PATCH` versions (each component a nonempty digit string
without redundant leading zeros, as the semver grammar requires); any
other shape fails to parse, sending the comparison to the textual
fallback — exactly what happens to tags such as `nightly-build-7`. -/

/-- Parse a semver numeric identifier: nonempty digits, no leading zero
(except the single digit `0`). -/
def parseNumericId (s : List Char) : Option Nat :=
  match s with
  | [] => none
  | c :: rest =>
    if ¬ (s.all Char.isDigit) then none
    else if c == '0' ∧ rest ≠ [] then none
    else some (s.foldl (fun n c => n * 10 + (c.toNat - 48)) 0)

/-- Model of `semver::Version::parse` on the plain numeric fragment. -/
def parseSemver (s : List Char) : Option (Nat × Nat × Nat) :=
  match splitDot s with
  | [a, b, c] =>
    match parseNumericId a, parseNumericId b, parseNumericId c with
    | some x, some y, some z => some (x, y, z)
    | _, _, _ => none
  | _ => none

/-- Semver precedence on numeric triples: lexicographic `<`. -/
def semverLt (a b : Nat × Nat × Nat) : Bool :=
  a.1 < b.1 || (a.1 == b.1 && (a.2.1 < b.2.1 || (a.2.1 == b.2.1 && a.2.2 < b.2.2)))

/-! ## Update-availability check (`commands.rs`, `check_sidecar_update`)

```rust
let latest_ver_str = release.tag_name.trim_start_matches('v');
let current_ver_str = current_version.trim_start_matches('v');
let available = if let (Ok(latest), Ok(current)) = (parse latest, parse current) {
    latest > current
} else {
    latest_ver_str != current_ver_str && latest_ver_str != "0.0.0"
};
``` -/

/-- The update-availability decision of `check_sidecar_update`, as a pure
function of the current version string and the release tag. -/
def isUpdateAvailable (currentVersion tagName : String) : Bool :=
  let latestV := dropLeadingVs tagName.data
  let currentV := dropLeadingVs currentVersion.data
  match parseSemver latestV, parseSemver currentV with
  | some l, some c => semverLt c l
  | _, _ => latestV ≠ currentV && latestV ≠ "0.0.0".data

/-- Drops exactly one leading `'v'`, if present. -/
def dropOneV (s : List Char) : List Char :=
  match s with
  | 'v' :: rest => rest
  | l => l

/-- Modelled from the spec: the spec's description of
`isUpdateAvailable` says to "strip a leading `v`" — one `v`, not every
leading `v`. Identical to `isUpdateAvailable` except for the stripping. -/
def isUpdateAvailableSpec (currentVersion tagName : String) : Bool :=
  let latestV := dropOneV tagName.data
  let currentV := dropOneV currentVersion.data
  match parseSemver latestV, parseSemver currentV with
  | some l, some c => semverLt c l
  | _, _ => latestV ≠ currentV && latestV ≠ "0.0.0".data

/-! ## Version resolver (`updater.rs`, `get_current_version`)

```rust
let bin_path = self.get_sidecar_path()?;                 // may propagate Err
if !bin_path.exists() { return Ok("0.0.0".to_string()); }
let output = Command::new(&bin_path).arg("--version").output().map_err(...)?;
if !output.status.success() { return Ok("0.0.0".to_string()); }
let version_str = String::from_utf8_lossy(&output.stdout).trim().to_string();
if let Some(last) = version_str.split_whitespace().last() {
    if last.contains('.') { return Ok(last.to_string()); }
}
Ok(version_str)
```

The environment is made explicit: whether the config-path resolution
succeeds, whether the binary exists, and the outcome of executing it
(`none` = spawn failure, `some (exitOk, stdout)` otherwise). -/

/-- Outcome of the `--version` invocation: `none` when the OS failed to
execute the binary, otherwise the exit-status success flag and stdout. -/
structure VersionEnv where
  pathResolveOk : Bool
  binExists : Bool
  execResult : Option (Bool × List Char)

/-- Parsing of the `--version` stdout: trim, take the last
whitespace-delimited token; return it if it contains `'.'`, else return
the whole trimmed output. -/
def parseVersionOutput (stdout : List Char) : List Char :=
  let t := trimL stdout
  match (splitWsL t).getLast? with
  | some last => if '.' ∈ last then last else t
  | none => t

/-- `Updater::get_current_version`, as a function of its environment.
`Except.error` models a propagated `Err`. -/
def getCurrentVersion (env : VersionEnv) : Except String (List Char) :=
  if env.pathResolveOk = false then .error "failed to resolve sidecar path"
  else if env.binExists = false then .ok "0.0.0".data
  else
    match env.execResult with
    | none => .error "failed to execute version query"
    | some (exitOk, stdout) =>
      if exitOk = false then .ok "0.0.0".data
      else .ok (parseVersionOutput stdout)

/-! ## Health probes

`sidecar.rs` (`is_sidecar_running`): connect with timeout, send a raw
`GET /health`, read one chunk of at most 1024 bytes, succeed iff the
chunk is nonempty and contains `"HTTP/1.1 200"` or `"HTTP/1.0 200"`.
Every failure (bad address, connect/write/read error, empty read,
anything else in the chunk) yields `false`.

`desktop/sidecar.rs` (`check_brain_health`): reqwest GET of `/health`
with a 2s timeout, succeed iff `response.status().is_success()`
(status in 200..=299); client-build and transport errors yield `false`. -/

/-- Environment of one `is_sidecar_running` probe. `readResult = none`
models a read error; `some chunk` the first chunk read (`n = 0` is the
empty list). -/
structure ProbeEnv where
  addrParseOk : Bool
  connectOk : Bool
  writeOk : Bool
  readResult : Option (List Char)

/-- `SidecarManager::is_sidecar_running` as a function of the probe
environment. -/
def isSidecarRunning (env : ProbeEnv) : Bool :=
  if env.addrParseOk = false then false
  else if env.connectOk = false then false
  else if env.writeOk = false then false
  else
    match env.readResult with
    | none => false
    | some chunk =>
      if chunk.length > 0 then
        hasSubL chunk "HTTP/1.1 200".data || hasSubL chunk "HTTP/1.0 200".data
      else false

/-- Environment of one `check_brain_health` probe: whether the reqwest
client builds, and the HTTP status code of the response (`none` =
transport error / timeout / closed port). -/
structure BrainProbeEnv where
  clientBuildOk : Bool
  responseStatus : Option Nat

/-- reqwest `StatusCode::is_success`: 200 ≤ code ≤ 299. -/
def isSuccessStatus (code : Nat) : Bool :=
  200 ≤ code && code ≤ 299

/-- `check_brain_health` as a function of the probe environment. -/
def checkBrainHealth (env : BrainProbeEnv) : Bool :=
  if env.clientBuildOk = false then false
  else
    match env.responseStatus with
    | none => false
    | some code => isSuccessStatus code

/-- Modelled from the spec: "success is any 2xx-class response received
within the timeout". For the raw-socket probe, the received chunk is a
2xx-class HTTP response when its status line is `HTTP/1.x NNN` with
`NNN` in 200–299, i.e. the chunk starts with `HTTP/1.1 ` or `HTTP/1.0 `
followed by `'2'` and two further digits. -/
def is2xxResponse (chunk : List Char) : Bool :=
  (leadEq chunk "HTTP/1.1 ".data || leadEq chunk "HTTP/1.0 ".data) &&
    match chunk.drop 9 with
    | '2' :: d1 :: d2 :: _ => d1.isDigit && d2.isDigit
    | _ => false

/-! ## Stale-instance reclaimer (`sidecar.rs`, `cleanup_stale_sidecar`)

Unix path. Phase 1: enumerate `ps -A -o pid,comm`; for every entry
whose `comm` contains `"opencode"` and whose pid differs from the
current process, run `kill`. Phase 2: if the target port is still
occupied, list the port's listeners with `lsof`; for each, read its
`comm` with `ps -p <pid> -o comm=` and run `kill` only when that `comm`
contains `"opencode"`; otherwise log
`"Port held by non-sidecar process, skipping"` and leave it alone.

The `ps` tables are modelled as already-parsed `(pid, comm)` records. -/

/-- One row of a `ps` listing: a pid and the process's `comm` name. -/
structure ProcInfo where
  pid : Nat
  comm : String
deriving DecidableEq, Repr

/-- The name check both kill sites of `cleanup_stale_sidecar` use:
`comm.contains("opencode")` (sidecar.rs lines 46 and 109). The sidecar's
known executable name is `opencode-cli` (config.rs `get_sidecar_path`),
which satisfies the check. -/
def nameMatchesSidecar (comm : String) : Bool :=
  hasSub comm "opencode"

/-- Phase 1 of the reclaimer: processes from the full `ps` table that get
killed — name check passed and not the current process. -/
def phase1Kills (currentPid : Nat) (procs : List ProcInfo) : List ProcInfo :=
  procs.filter (fun p => nameMatchesSidecar p.comm && p.pid != currentPid)

/-- Phase 2 of the reclaimer: among the listeners still holding the target
port, those that get killed — exactly the ones passing the name check. -/
def phase2Kills (portHolders : List ProcInfo) : List ProcInfo :=
  portHolders.filter (fun p => nameMatchesSidecar p.comm)

/-- Phase 2 skip log: port holders that fail the name check are logged
and left alone. -/
def phase2Skipped (portHolders : List ProcInfo) : List ProcInfo :=
  portHolders.filter (fun p => ! nameMatchesSidecar p.comm)

/-- All processes `cleanup_stale_sidecar` terminates, given the `ps`
table, whether the port is still occupied after phase 1, and the port's
listeners. -/
def cleanupStaleKills (currentPid : Nat) (procs : List ProcInfo)
    (portStillOccupied : Bool) (portHolders : List ProcInfo) : List ProcInfo :=
  phase1Kills currentPid procs ++
    (if portStillOccupied then phase2Kills portHolders else [])

/-! ## Pre-install kill step (`updater.rs`, `perform_update`, Unix)

```rust
let _ = Command::new("pkill").args(["-f", "opencode-cli"]).output();
```

`pkill -f PAT` matches `PAT` as a regex against each process's **full
command line**, not its executable name; `opencode-cli` contains no
regex metacharacters, so the match is substring containment on the
command line. -/

/-- An OS process as `pkill` sees it: pid, executable name, and full
command line. -/
structure OsProc where
  pid : Nat
  exeName : String
  cmdline : String
deriving DecidableEq, Repr

/-- `pkill -f pat` over a process table: every process whose command line
contains `pat` is targeted. -/
def pkillF (pat : String) (procs : List OsProc) : List OsProc :=
  procs.filter (fun p => hasSub p.cmdline pat)

/-- The pre-install kill step of `perform_update` on Unix. -/
def preInstallKillTargets (procs : List OsProc) : List OsProc :=
  pkillF "opencode-cli" procs

/-! ## Process supervisor (`sidecar.rs`, `SidecarManager`)

State machine over the `SidecarState` handle store. Children are
numbered by spawn order; `store` is the `Arc<Mutex<Option<Child>>>`
slot; `spawnedAlive` are the spawned children whose OS processes are
still alive (a dropped `Child` handle does **not** kill the process).

`start_sidecar`: if `is_sidecar_running(port)` reports healthy, return
without spawning (adopt the existing instance). Otherwise run the
best-effort `cleanup_stale_sidecar` (compiled in only for release
builds, and its `kill` results are ignored), spawn a new child and store
it, **overwriting** whatever the slot held.

`shutdown`: take the stored handle, if any, and `kill()` it.

`restart_sidecar`: `shutdown` then `start_sidecar`.

Per-`start` environment bits: `probeHealthy` — the result of
`is_sidecar_running`; `cleanupKillsStale` — whether the best-effort
cleanup pass actually terminated the stale children (false in debug
builds, where it is compiled out, or when its ignored `kill` commands
fail). -/

/-- Supervisor state: the handle slot, the set of spawned children still
alive, and the next spawn id. -/
structure SupState where
  store : Option Nat
  spawnedAlive : List Nat
  nextId : Nat
deriving DecidableEq, Repr

/-- Initial supervisor state: nothing spawned, empty slot. -/
def supInit : SupState := ⟨none, [], 0⟩

/-- `SidecarManager::start_sidecar`. -/
def startSidecar (probeHealthy cleanupKillsStale : Bool) (s : SupState) : SupState :=
  if probeHealthy then s
  else
    let afterCleanup := if cleanupKillsStale then [] else s.spawnedAlive
    { store := some s.nextId
      spawnedAlive := afterCleanup ++ [s.nextId]
      nextId := s.nextId + 1 }

/-- `SidecarManager::shutdown`: take and kill the stored handle. -/
def shutdownSidecar (s : SupState) : SupState :=
  match s.store with
  | none => s
  | some id => { s with store := none, spawnedAlive := s.spawnedAlive.erase id }

/-- A supervisor operation, with the environment of each `start` inlined. -/
inductive SupOp where
  | start (probeHealthy cleanupKillsStale : Bool)
  | stop
  | restart (probeHealthy cleanupKillsStale : Bool)
  | childExits (id : Nat)
deriving DecidableEq, Repr

/-- One supervisor step. `childExits` models the child's OS process
dying on its own; `sidecar.rs` has no exit listener, so the slot keeps
the dead handle. -/
def supStep (s : SupState) : SupOp → SupState
  | .start ph ck => startSidecar ph ck s
  | .stop => shutdownSidecar s
  | .restart ph ck => startSidecar ph ck (shutdownSidecar s)
  | .childExits id => { s with spawnedAlive := s.spawnedAlive.erase id }

/-- Run a sequence of supervisor operations from a state. -/
def supRun (s : SupState) : List SupOp → SupState
  | [] => s
  | op :: ops => supRun (supStep s op) ops

/-! ## Update installer file operations (`updater.rs`, `perform_update`)

The filesystem-mutation phase, after the asset has been downloaded into
the temp staging file (lines 274–336):

```rust
if bin_path.exists() {
    let old_path = bin_path.with_extension("old");
    if old_path.exists() { let _ = fs::remove_file(&old_path); }
    if let Err(e) = fs::rename(&bin_path, &old_path) {
        if let Err(e) = fs::remove_file(&bin_path) {
            return Err("Could not remove current binary: ...");
        }
    }
}
// zip: find first entry with name.contains("opencode") && !name.ends_with("/"),
//      File::create(&bin_path) then io::copy into it; none found => extracted = false
// else: fs::copy(&archive_path, &bin_path)
if !extracted { return Err("Could not extract executable from update archive"); }
```

Only the installation path and its `.old` backup matter; the state is
their contents. A write to the installation path goes through
`File::create` followed by a copy, so it is modelled as two successive
on-disk states: the zero-byte file right after creation, then the fully
written file (the `fs::copy` branch is modelled the same way, since it
also truncates the destination before copying). The returned trace lists
every intermediate on-disk state, starting from the initial one. -/

/-- File contents as byte lists. -/
def Bytes := List Nat
deriving DecidableEq, Repr

/-- Contents of the installation path (`bin`) and its `.old` backup. -/
structure FsState where
  bin : Option Bytes
  old : Option Bytes
deriving DecidableEq, Repr

/-- Rust `str::ends_with("/")`. -/
def endsWithSlash (s : String) : Bool :=
  s.data.getLast? == some '/'

/-- The zip-entry search of `perform_update`: the first entry whose name
contains `"opencode"` and is not a directory entry. -/
def zipFindEntry (entries : List (String × Bytes)) : Option (String × Bytes) :=
  entries.find? (fun e => hasSub e.1 "opencode" && ¬ endsWithSlash e.1)

/-- The filesystem-mutation phase of `perform_update`, given the failure
behaviour of `fs::rename` and `fs::remove_file` on the (possibly locked)
installed binary, the asset kind, and the downloaded content. Returns
the trace of on-disk states and the overall result. -/
def performUpdateFileOps (fs0 : FsState) (renameOk removeBinOk : Bool)
    (isZip : Bool) (entries : List (String × Bytes)) (raw : Bytes) :
    List FsState × Except String FsState :=
  let backup : List FsState × Except String FsState :=
    match fs0.bin with
    | none => ([fs0], .ok fs0)
    | some b =>
      let fs1 : FsState := { fs0 with old := none }
      if renameOk then
        let fs2 : FsState := { bin := none, old := some b }
        ([fs0, fs1, fs2], .ok fs2)
      else if removeBinOk then
        let fs2 : FsState := { fs1 with bin := none }
        ([fs0, fs1, fs2], .ok fs2)
      else ([fs0, fs1], .error "Could not remove current binary")
  match backup with
  | (trace, .error e) => (trace, .error e)
  | (trace, .ok fs2) =>
    if isZip then
      match zipFindEntry entries with
      | some (_, bytes) =>
        let created : FsState := { fs2 with bin := some [] }
        let written : FsState := { fs2 with bin := some bytes }
        (trace ++ [created, written], .ok written)
      | none => (trace, .error "Could not extract executable from update archive")
    else
      let created : FsState := { fs2 with bin := some [] }
      let written : FsState := { fs2 with bin := some raw }
      (trace ++ [created, written], .ok written)

/-! ## Desktop brain supervisor (`desktop/src-tauri/src/sidecar.rs`)

`spawn_brain` stores the child and sets `BRAIN_RUNNING := true`; a
background listener drains `CommandEvent`s and, on
`CommandEvent::Terminated`, sets `BRAIN_RUNNING := false` and clears the
handle. `stop_brain_internal`'s forced path takes the handle and, if one
was stored, kills it and clears the flag.

`get_brain_status` is `BRAIN_RUNNING.load(...)` — it reads the flag and
performs no health probe, so it is a function of the event history
alone; the process's actual health never enters. -/

/-- The desktop supervisor's shared state: the `BRAIN_RUNNING` flag and
whether `BRAIN_PROCESS` holds a handle. -/
structure BrainState where
  running : Bool
  stored : Bool
deriving DecidableEq, Repr

/-- Events that mutate the desktop supervisor's shared state:
a successful spawn, the listener's stdout/stderr lines (no state
change), the listener processing `CommandEvent::Terminated`, and the
forced-kill path of `stop_brain_internal` taking the handle. -/
inductive BrainEvent where
  | spawnSuccess
  | stdoutLine
  | stderrLine
  | terminated
  | killTaken
deriving DecidableEq, Repr

/-- One step of the desktop supervisor's shared state. -/
def brainStep (s : BrainState) : BrainEvent → BrainState
  | .spawnSuccess => { running := true, stored := true }
  | .stdoutLine => s
  | .stderrLine => s
  | .terminated => { running := false, stored := false }
  | .killTaken => if s.stored then { running := false, stored := false } else s

/-- Run a sequence of events from a state. -/
def brainRun (s : BrainState) (evs : List BrainEvent) : BrainState :=
  evs.foldl brainStep s

/-- `get_brain_status`: a load of the `BRAIN_RUNNING` flag. -/
def getBrainStatus (s : BrainState) : Bool :=
  s.running

/-! ## Auxiliary predicates for the proofs -/

/-- Modelled from the spec (amended wording for the update check):
"strip every leading `v` from both version strings", then compare
numerically when both parse as semvers, else report available iff the
stripped strings differ and the latest is not the sentinel `0.0.0`. -/
def isUpdateAvailableAmended (currentVersion tagName : String) : Bool :=
  let latestV := dropLeadingVs tagName.data
  let currentV := dropLeadingVs currentVersion.data
  match parseSemver latestV, parseSemver currentV with
  | some l, some c => semverLt c l
  | _, _ => latestV ≠ currentV && latestV ≠ "0.0.0".data

/-- Safe-start discipline: a direct `start` call happens only when the
port probe reports healthy or the best-effort stale cleanup actually
kills the previous children. This is what the code relies on — and does
not enforce — for the no-duplicate-children property. -/
def startSafe : SupOp → Prop
  | .start ph ck => ph = true ∨ ck = true
  | _ => True

/-- Supervisor invariant: at most one spawned child is alive, and every
live child is the one whose handle the store holds. -/
def SupInv (s : SupState) : Prop :=
  s.spawnedAlive.length ≤ 1 ∧ ∀ id ∈ s.spawnedAlive, s.store = some id

/-! ## Theorems -/

/-- Membership in the reclaimer's kill list, unfolded: a process is
killed iff it passed phase 1 (in the `ps` table, name check, not the
current pid) or phase 2 (port occupied, holds the port, name check). -/
theorem mem_cleanupStaleKills {currentPid : Nat} {procs : List ProcInfo}
    {portOccupied : Bool} {portHolders : List ProcInfo} {p : ProcInfo} :
    p ∈ cleanupStaleKills currentPid procs portOccupied portHolders ↔
    (p ∈ procs ∧ nameMatchesSidecar p.comm = true ∧ p.pid ≠ currentPid) ∨
    (portOccupied = true ∧ p ∈ portHolders ∧ nameMatchesSidecar p.comm = true) := by
  cases portOccupied <;>
    simp [cleanupStaleKills, phase1Kills, phase2Kills, List.mem_filter,
      List.mem_append, and_assoc]

/-- C1: every process the stale-instance reclaimer terminates has passed
the sidecar name check (`comm` contains `"opencode"`, the check both
kill sites use); in particular a process holding the target port whose
name fails the check is never terminated and is logged as skipped. -/
theorem cleanup_stale_kills_only_name_verified (currentPid : Nat)
    (procs : List ProcInfo) (portOccupied : Bool) (portHolders : List ProcInfo) :
    (∀ p ∈ cleanupStaleKills currentPid procs portOccupied portHolders,
       nameMatchesSidecar p.comm = true) ∧
    (∀ q ∈ portHolders, nameMatchesSidecar q.comm = false →
       q ∉ cleanupStaleKills currentPid procs portOccupied portHolders ∧
       q ∈ phase2Skipped portHolders) := by
  constructor
  · intro p hp
    rcases mem_cleanupStaleKills.mp hp with ⟨_, h, _⟩ | ⟨_, _, h⟩ <;> exact h
  · intro q hq hname
    refine ⟨fun hk => ?_, ?_⟩
    · rcases mem_cleanupStaleKills.mp hk with ⟨_, h, _⟩ | ⟨_, _, h⟩ <;>
        simp [h] at hname
    · simp [phase2Skipped, List.mem_filter, hq, hname]

/-- Witness for C1: on a concrete process table, the matching stale
sidecar is name-verified and the unrelated port holder survives. -/
theorem cleanup_stale_kills_only_name_verified_witness :
    nameMatchesSidecar "opencode-cli" = true ∧
    (⟨300, "postgres"⟩ : ProcInfo) ∉
      cleanupStaleKills 1 [⟨42, "opencode-cli"⟩, ⟨300, "postgres"⟩] true
        [⟨300, "postgres"⟩] :=
  ⟨(cleanup_stale_kills_only_name_verified 1 [⟨42, "opencode-cli"⟩, ⟨300, "postgres"⟩]
      true [⟨300, "postgres"⟩]).1 ⟨42, "opencode-cli"⟩ (by decide),
   ((cleanup_stale_kills_only_name_verified 1 [⟨42, "opencode-cli"⟩, ⟨300, "postgres"⟩]
      true [⟨300, "postgres"⟩]).2 ⟨300, "postgres"⟩ (by decide) (by decide)).1⟩

/-- C2 counterexample: on a successful update (old binary `[1,2,3]`,
zip asset containing `opencode-cli` with bytes `[9,9]`), the trace of
on-disk states contains a state whose installation path holds a
zero-byte file — neither the old nor the new binary — visible under its
final name, refuting "never a half-written file visible under its final
name" for the whole of `install()`. -/
theorem perform_update_transient_partial_counterexample :
    ((⟨some [], some [1, 2, 3]⟩ : FsState) ∈
       (performUpdateFileOps ⟨some [1, 2, 3], none⟩ true true true
         [("opencode-cli", [9, 9])] []).1) ∧
    (performUpdateFileOps ⟨some [1, 2, 3], none⟩ true true true
       [("opencode-cli", [9, 9])] []).2 = .ok ⟨some [9, 9], some [1, 2, 3]⟩ ∧
    (some ([] : Bytes) ≠ some [1, 2, 3] ∧ some ([] : Bytes) ≠ some [9, 9]) := by
  refine ⟨by decide, rfl, by decide, by decide⟩

/-- C2 amended: the pre-write discipline holds — the old binary is
first renamed to the `.old` backup; when both the rename and the direct
removal fail, `install()` aborts with an error before any write to the
installation path, and every traced on-disk state still holds the old
binary intact (no zero-byte or partially-written file). -/
theorem perform_update_backup_discipline (fs0 : FsState) (b : Bytes)
    (isZip : Bool) (entries : List (String × Bytes)) (raw : Bytes)
    (hbin : fs0.bin = some b) :
    ((performUpdateFileOps fs0 true true isZip entries raw).1.take 3 =
       [fs0, { fs0 with old := none }, ⟨none, some b⟩]) ∧
    ((performUpdateFileOps fs0 false false isZip entries raw).2 =
       .error "Could not remove current binary" ∧
     ∀ s ∈ (performUpdateFileOps fs0 false false isZip entries raw).1,
       s.bin = some b) := by
  obtain ⟨bin0, old0⟩ := fs0
  simp only at hbin
  subst hbin
  refine ⟨?_, ?_, ?_⟩
  · simp only [performUpdateFileOps, if_pos rfl]
    cases isZip with
    | false => simp [List.take]
    | true => rcases zipFindEntry entries with _ | ⟨n, bytes⟩ <;> simp [List.take]
  · simp [performUpdateFileOps]
  · intro s hs
    simp only [performUpdateFileOps, if_neg] at hs
    simp at hs
    rcases hs with h | h <;> simp [h]

/-- Witness for C2 amended: a concrete locked binary `[5]`. -/
theorem perform_update_backup_discipline_witness :
    ((performUpdateFileOps ⟨some [5], none⟩ true true false [] [7]).1.take 3 =
       [⟨some [5], none⟩, ⟨some [5], none⟩, ⟨none, some [5]⟩]) ∧
    (performUpdateFileOps ⟨some [5], none⟩ false false false [] [7]).2 =
       .error "Could not remove current binary" :=
  ⟨(perform_update_backup_discipline ⟨some [5], none⟩ [5] false [] [7] rfl).1,
   (perform_update_backup_discipline ⟨some [5], none⟩ [5] false [] [7] rfl).2.1⟩

/-- C3 counterexample: two `start` calls, each finding the port probe
unhealthy and the best-effort cleanup ineffective (the first child is
alive but not yet answering `/health`): the second `start` stores a new
handle while the first child is still alive, leaving two live spawned
children — refuting "a new handle is stored only when no previously
spawned child is still alive". -/
theorem start_overwrite_leaks_live_child :
    (supRun supInit [.start false false, .start false false]).store = some 1 ∧
    (supRun supInit [.start false false, .start false false]).spawnedAlive = [0, 1] ∧
    (supRun supInit [.start false false, .start false false]).spawnedAlive.length = 2 := by
  decide

/-- Initial supervisor state satisfies the invariant. -/
theorem supInv_init : SupInv supInit := by
  constructor <;> simp [supInit]

/-- After `shutdown`, no spawned child of an invariant-respecting state
is alive: the stored handle was the only live child and it is killed. -/
theorem shutdown_alive_nil {s : SupState} (h : SupInv s) :
    (shutdownSidecar s).spawnedAlive = [] := by
  obtain ⟨hlen, hstore⟩ := h
  unfold shutdownSidecar
  cases hst : s.store with
  | none =>
    simp only
    cases halive : s.spawnedAlive with
    | nil => rfl
    | cons a t =>
      have := hstore a (by rw [halive]; exact List.mem_cons_self a t)
      rw [hst] at this
      cases this
  | some id =>
    simp only
    cases halive : s.spawnedAlive with
    | nil => rfl
    | cons a t =>
      have ha := hstore a (by rw [halive]; exact List.mem_cons_self a t)
      rw [hst] at ha
      have haid : a = id := by injection ha with h; exact h.symm
      have ht : t = [] := by
        rw [halive] at hlen
        simpa using hlen
      subst haid ht
      simp [List.erase_cons_head]

/-- A state with no live children satisfies the invariant. -/
theorem supInv_of_alive_nil {s : SupState} (h : s.spawnedAlive = []) : SupInv s := by
  refine ⟨by rw [h]; simp, by rw [h]; simp⟩

/-- Starting from a state with no live children preserves the invariant
regardless of the probe and cleanup outcomes. -/
theorem supInv_start_of_alive_nil {s : SupState} (ph ck : Bool)
    (h : s.spawnedAlive = []) : SupInv (startSidecar ph ck s) := by
  cases ph with
  | true => exact supInv_of_alive_nil h
  | false =>
    cases ck <;>
      refine ⟨by simp [startSidecar, h], ?_⟩ <;>
      · intro id hid
        simp [startSidecar, h] at hid
        simp [startSidecar, hid]

/-- The supervisor invariant is preserved by every safe-start step. -/
theorem supInv_step {s : SupState} {op : SupOp} (hop : startSafe op) (h : SupInv s) :
    SupInv (supStep s op) := by
  cases op with
  | start ph ck =>
    rcases hop with hph | hck
    · subst hph; exact h
    · subst hck
      cases ph with
      | true => exact h
      | false =>
        refine ⟨by simp [supStep, startSidecar], ?_⟩
        intro id hid
        simp [supStep, startSidecar] at hid
        simp [supStep, startSidecar, hid]
  | stop => exact supInv_of_alive_nil (shutdown_alive_nil h)
  | restart ph ck => exact supInv_start_of_alive_nil ph ck (shutdown_alive_nil h)
  | childExits id =>
    obtain ⟨hlen, hstore⟩ := h
    refine ⟨le_trans (List.erase_sublist id s.spawnedAlive).length_le hlen, ?_⟩
    intro j hj
    exact hstore j ((List.erase_sublist id s.spawnedAlive).mem hj)

/-- The supervisor invariant is preserved by every safe-start run. -/
theorem supInv_run {s : SupState} (ops : List SupOp)
    (hops : ∀ op ∈ ops, startSafe op) (h : SupInv s) : SupInv (supRun s ops) := by
  induction ops generalizing s with
  | nil => exact h
  | cons op rest ih =>
    exact ih (fun o ho => hops o (List.mem_cons_of_mem _ ho))
      (supInv_step (hops op (List.mem_cons_self op rest)) h)

/-- C3 amended: the handle store is a single slot so it never holds two
handles, and provided every direct `start` happens when the probe is
healthy or the stale cleanup succeeds in killing the previous children,
at most one spawned child is alive at any time and the stored handle is
that child's. Without that proviso a second live child is leaked (see
the counterexample). -/
theorem sup_at_most_one_live_child (ops : List SupOp)
    (hops : ∀ op ∈ ops, startSafe op) :
    (supRun supInit ops).spawnedAlive.length ≤ 1 ∧
    (∀ id ∈ (supRun supInit ops).spawnedAlive,
       (supRun supInit ops).store = some id) :=
  supInv_run ops hops supInv_init

/-- Witness for C3 amended: a concrete safe start/stop/restart trace. -/
theorem sup_at_most_one_live_child_witness :
    (supRun supInit [.start false true, .stop, .start false true,
       .restart false false]).spawnedAlive.length ≤ 1 :=
  (sup_at_most_one_live_child
    [.start false true, .stop, .start false true, .restart false false]
    (by intro op hop; fin_cases hop <;> simp [startSafe])).1

/-- C4 counterexample: the claim says a single leading `v` is stripped;
the code strips every leading `v`. At `current = "vv1.3.0"`,
`latest = "v1.3.0"` the claim's reading reports an update available
while the code reports none. -/
theorem update_check_strip_counterexample :
    isUpdateAvailableSpec "vv1.3.0" "v1.3.0" = true ∧
    isUpdateAvailable "vv1.3.0" "v1.3.0" = false := by decide

/-- C4 amended: the update check strips **all** leading `v` characters
from both strings, compares numerically when both parse as semvers and
otherwise falls back to textual difference with the `0.0.0` sentinel
guard; all five example evaluations hold. -/
theorem update_check_semantics :
    (∀ current tag : String,
       isUpdateAvailable current tag = isUpdateAvailableAmended current tag) ∧
    isUpdateAvailable "1.2.0" "1.3.0" = true ∧
    isUpdateAvailable "1.3.0" "1.2.0" = false ∧
    isUpdateAvailable "1.2.0" "1.2.0" = false ∧
    isUpdateAvailable "0.0.0" "nightly-build-7" = true ∧
    isUpdateAvailable "nightly-build-7" "nightly-build-7" = false :=
  ⟨fun _ _ => rfl, by decide, by decide, by decide, by decide, by decide⟩

/-- C5 counterexample: a `204 No Content` reply is a 2xx-class response,
yet the raw-socket probe returns `false`, because it accepts only
chunks containing `HTTP/1.1 200` or `HTTP/1.0 200`. -/
theorem probe_rejects_other_2xx_counterexample :
    is2xxResponse "HTTP/1.1 204 No Content\r\n\r\n".data = true ∧
    isSidecarRunning ⟨true, true, true, some "HTTP/1.1 204 No Content\r\n\r\n".data⟩
      = false := by decide

/-- C5 amended: the raw-socket probe returns `true` iff the connection,
write and read all succeed and the nonempty first chunk contains
`HTTP/1.1 200` or `HTTP/1.0 200` (status 200 exactly, not the whole 2xx
class); the desktop probe returns `true` iff a response with a 2xx
status is received; both collapse every failure to `false`, in
particular a closed port. -/
theorem health_probe_semantics :
    (∀ env : ProbeEnv, isSidecarRunning env = true ↔
       env.addrParseOk = true ∧ env.connectOk = true ∧ env.writeOk = true ∧
       ∃ chunk, env.readResult = some chunk ∧ chunk ≠ [] ∧
         (hasSubL chunk "HTTP/1.1 200".data = true ∨
          hasSubL chunk "HTTP/1.0 200".data = true)) ∧
    (∀ env : BrainProbeEnv, checkBrainHealth env = true ↔
       env.clientBuildOk = true ∧
       ∃ code, env.responseStatus = some code ∧ 200 ≤ code ∧ code ≤ 299) ∧
    (∀ env : ProbeEnv, env.connectOk = false → isSidecarRunning env = false) ∧
    (∀ env : BrainProbeEnv, env.responseStatus = none → checkBrainHealth env = false) := by
  refine ⟨?_, ?_, ?_, ?_⟩
  · rintro ⟨a, c, w, r⟩
    cases a <;> cases c <;> cases w <;> simp [isSidecarRunning]
    cases r with
    | none => simp
    | some chunk =>
      by_cases hl : chunk = []
      · subst hl; simp
      · have hpos : chunk.length > 0 := List.length_pos.mpr hl
        simp [hpos, hl, Bool.or_eq_true]
  · rintro ⟨cb, r⟩
    cases cb <;> simp [checkBrainHealth]
    cases r with
    | none => simp
    | some code => simp [isSuccessStatus]
  · rintro ⟨a, c, w, r⟩ hc
    subst hc
    cases a <;> simp [isSidecarRunning]
  · rintro ⟨cb, r⟩ hr
    subst hr
    cases cb <;> simp [checkBrainHealth]

/-- Witness for C5 amended: a probe whose connection fails (closed
port) returns `false`. -/
theorem health_probe_semantics_witness :
    isSidecarRunning ⟨true, false, true, none⟩ = false :=
  health_probe_semantics.2.2.1 ⟨true, false, true, none⟩ rfl

/-- C6 counterexample: when executing the binary fails, the version
query propagates an error instead of returning the sentinel; and
unparsable stdout (`"banana"`) yields the raw string, not `0.0.0` —
refuting "never propagates an error; every failure mode returns
`0.0.0`". -/
theorem version_query_propagates_error_counterexample :
    getCurrentVersion ⟨true, true, none⟩ = .error "failed to execute version query" ∧
    getCurrentVersion ⟨true, true, some (true, "banana".data)⟩ = .ok "banana".data ∧
    "banana".data ≠ "0.0.0".data := ⟨rfl, rfl, by decide⟩

/-- C6 amended: the version query returns the `0.0.0` sentinel when the
installation path does not exist or the binary exits non-zero, and the
raw trimmed stdout (not an error) on unparsable output; but a failure to
resolve the sidecar path or to execute the binary **is** propagated as
an error. -/
theorem version_query_failsoft_behavior (env : VersionEnv) :
    (env.pathResolveOk = true → env.binExists = false →
       getCurrentVersion env = .ok "0.0.0".data) ∧
    (∀ stdout, env.pathResolveOk = true → env.binExists = true →
       env.execResult = some (false, stdout) →
       getCurrentVersion env = .ok "0.0.0".data) ∧
    (∀ stdout, env.pathResolveOk = true → env.binExists = true →
       env.execResult = some (true, stdout) →
       getCurrentVersion env = .ok (parseVersionOutput stdout)) ∧
    (env.pathResolveOk = false →
       getCurrentVersion env = .error "failed to resolve sidecar path") ∧
    (env.pathResolveOk = true → env.binExists = true → env.execResult = none →
       getCurrentVersion env = .error "failed to execute version query") := by
  obtain ⟨p, b, r⟩ := env
  refine ⟨?_, ?_, ?_, ?_, ?_⟩
  · intro h1 h2; subst h1; subst h2; simp [getCurrentVersion]
  · intro stdout h1 h2 h3; subst h1; subst h2; subst h3; simp [getCurrentVersion]
  · intro stdout h1 h2 h3; subst h1; subst h2; subst h3; simp [getCurrentVersion]
  · intro h1; subst h1; simp [getCurrentVersion]
  · intro h1 h2 h3; subst h1; subst h2; subst h3; simp [getCurrentVersion]

/-- Witness for C6 amended: missing binary yields the sentinel. -/
theorem version_query_failsoft_behavior_witness :
    getCurrentVersion ⟨true, false, none⟩ = .ok "0.0.0".data :=
  (version_query_failsoft_behavior ⟨true, false, none⟩).1 rfl rfl

/-- C7: the version parser returns the last whitespace-delimited token
of the trimmed stdout when that token contains `'.'` (so
`"opencode 1.4.2"` yields `"1.4.2"`), the raw trimmed stdout when no
such token exists, and when the installation path does not exist the
query returns `0.0.0` whatever the (never consulted) invocation outcome
would be. -/
theorem version_parsing_correct (stdout : List Char) :
    (∀ last, (splitWsL (trimL stdout)).getLast? = some last → '.' ∈ last →
       parseVersionOutput stdout = last) ∧
    (∀ last, (splitWsL (trimL stdout)).getLast? = some last → '.' ∉ last →
       parseVersionOutput stdout = trimL stdout) ∧
    ((splitWsL (trimL stdout)).getLast? = none →
       parseVersionOutput stdout = trimL stdout) ∧
    parseVersionOutput "opencode 1.4.2".data = "1.4.2".data ∧
    (∀ r : Option (Bool × List Char),
       getCurrentVersion ⟨true, false, r⟩ = .ok "0.0.0".data) := by
  refine ⟨?_, ?_, ?_, by decide, fun r => rfl⟩
  · intro last h hd
    simp only [parseVersionOutput, h]
    simp [hd]
  · intro last h hd
    simp only [parseVersionOutput, h]
    simp [hd]
  · intro h
    simp only [parseVersionOutput, h]

/-- Witness for C7: the documented example stdout. -/
theorem version_parsing_correct_witness :
    parseVersionOutput "opencode 1.4.2".data = "1.4.2".data :=
  (version_parsing_correct "opencode 1.4.2".data).1 "1.4.2".data (by decide) (by decide)

/-- C8: when the health probe reports a healthy instance on the target
port, `start_sidecar` adopts it and returns with the state unchanged —
in particular no child is spawned (the spawn counter and the live set
are untouched). -/
theorem start_adopts_healthy_without_spawn (s : SupState) (cleanupKillsStale : Bool) :
    startSidecar true cleanupKillsStale s = s ∧
    supRun s [.start true cleanupKillsStale] = s := ⟨rfl, rfl⟩

/-- C9: the pre-install kill step targets exactly the processes whose
full command line contains `opencode-cli`; the criterion never consults
the executable name, so a process with a different executable name but
a matching command line is targeted with no name verification. -/
theorem preinstall_kill_by_cmdline_only (procs : List OsProc) (p : OsProc) :
    (p ∈ preInstallKillTargets procs ↔
       p ∈ procs ∧ hasSub p.cmdline "opencode-cli" = true) ∧
    (∀ q ∈ procs, hasSub q.cmdline "opencode-cli" = true →
       q ∈ preInstallKillTargets procs) := by
  constructor
  · simp [preInstallKillTargets, pkillF, List.mem_filter]
  · intro q hq hsub
    simp [preInstallKillTargets, pkillF, List.mem_filter, hq, hsub]

/-- Witness for C9: a `python3` process whose command line merely
mentions `opencode-cli` is targeted. -/
theorem preinstall_kill_by_cmdline_only_witness :
    (⟨7, "python3", "python3 /opt/opencode-cli/run.py"⟩ : OsProc) ∈
      preInstallKillTargets [⟨7, "python3", "python3 /opt/opencode-cli/run.py"⟩] :=
  (preinstall_kill_by_cmdline_only _ ⟨7, "python3", "python3 /opt/opencode-cli/run.py"⟩).2
    ⟨7, "python3", "python3 /opt/opencode-cli/run.py"⟩ (by decide) (by decide)

/-- Stream log events (stdout/stderr lines) leave the brain state
unchanged. -/
theorem brainRun_log_only (s : BrainState) (evs : List BrainEvent)
    (h : ∀ e ∈ evs, e = .stdoutLine ∨ e = .stderrLine) :
    brainRun s evs = s := by
  induction evs generalizing s with
  | nil => rfl
  | cons e rest ih =>
    have he := h e (List.mem_cons_self e rest)
    have hrest : ∀ e ∈ rest, e = .stdoutLine ∨ e = .stderrLine :=
      fun e hx => h e (List.mem_cons_of_mem _ hx)
    rcases he with he | he <;> subst he <;> exact ih s hrest

/-- C10: `get_brain_status` returns the stored running flag — it is a
function of the event history alone and performs no health probe — so
after a successful spawn it reports `true` throughout any interval of
mere log events (during which the process may be unhealthy or already
dead), until the listener processes the termination event, after which
it reports `false`. -/
theorem brain_status_is_stored_flag (s0 : BrainState) (pre mid : List BrainEvent)
    (h : ∀ e ∈ mid, e = .stdoutLine ∨ e = .stderrLine) :
    (∀ s : BrainState, getBrainStatus s = s.running) ∧
    getBrainStatus (brainRun s0 (pre ++ .spawnSuccess :: mid)) = true ∧
    getBrainStatus (brainRun s0 ((pre ++ .spawnSuccess :: mid) ++ [.terminated])) = false := by
  refine ⟨fun s => rfl, ?_, ?_⟩
  · show getBrainStatus (brainRun s0 (pre ++ .spawnSuccess :: mid)) = true
    have : brainRun s0 (pre ++ .spawnSuccess :: mid)
        = brainRun ⟨true, true⟩ mid := by
      simp [brainRun, List.foldl_append]
      rfl
    rw [this, brainRun_log_only ⟨true, true⟩ mid h]
    rfl
  · have : brainRun s0 ((pre ++ .spawnSuccess :: mid) ++ [.terminated])
        = brainStep (brainRun s0 (pre ++ .spawnSuccess :: mid)) .terminated := by
      simp [brainRun, List.foldl_append]
    rw [this]
    rfl

/-- Witness for C10: a concrete spawn followed by one log line. -/
theorem brain_status_is_stored_flag_witness :
    getBrainStatus (brainRun ⟨false, false⟩ ([] ++ .spawnSuccess :: [.stdoutLine])) = true :=
  (brain_status_is_stored_flag ⟨false, false⟩ [] [.stdoutLine] (by decide)).2.1

end Godoty
